import Mathlib

/-!
Shallow embedding of the retroval backtesting engine
(src/testing.rs, src/strategy.rs, src/config.rs, src/historical.rs).

Modelling conventions:
* Rust `f64` is modelled by `ℚ` (the claims under study use exact
  decimal values where `f64` and exact arithmetic agree).
* `chrono::NaiveDateTime` is modelled by an opaque timestamp `Nat`.
* The log buffer and file I/O of `Portfolio` are pure side channels that
  never influence `cash`, `open_trade`, `closed_trades` or
  `equity_curve`; they are omitted from the state.
* Rust operations that can panic (`Option::unwrap`, `Vec::last().unwrap()`)
  are modelled in the `Option` monad: `none` marks a panic.
-/

namespace Retroval

/-- `Direction` from src/testing.rs. -/
inductive Direction where
  | Long
  | Short
  | Flat
deriving DecidableEq, Repr

/-- `Signal` from src/strategy.rs. -/
inductive Signal where
  | Buy
  | Sell
  | Hold
deriving DecidableEq, Repr

/-- `Kline` from src/historical.rs (timestamps as `Nat`, floats as `ℚ`). -/
structure Kline where
  timestamp : Nat
  openPrice : ℚ
  high : ℚ
  low : ℚ
  close : ℚ
  volume : ℚ
deriving DecidableEq, Repr

/-- `Trade` from src/testing.rs. -/
structure Trade where
  entry_date : Nat
  exit_date : Option Nat
  entry_price : ℚ
  exit_price : Option ℚ
  direction : Direction
  allocated : ℚ
  profit : Option ℚ
  commission : ℚ
deriving DecidableEq, Repr

/-- The state of `Portfolio` from src/testing.rs (log buffer and the borrowed
`Config` reference omitted: they never feed back into these fields). -/
structure Portfolio where
  cash : ℚ
  open_trade : Option Trade
  closed_trades : List Trade
  equity_curve : List (Nat × ℚ)
  commission_rate : ℚ
  slippage : ℚ
  trade_fraction : ℚ
deriving DecidableEq, Repr

/-- `Portfolio::new`. -/
def Portfolio.new (initial_equity commission_rate slippage trade_fraction : ℚ) :
    Portfolio :=
  { cash := initial_equity
    open_trade := none
    closed_trades := []
    equity_curve := []
    commission_rate := commission_rate
    slippage := slippage
    trade_fraction := trade_fraction }

/-- `Portfolio::total_equity`. -/
def Portfolio.total_equity (p : Portfolio) (current_price : ℚ) : ℚ :=
  match p.open_trade with
  | some trade =>
      let trade_value :=
        if trade.direction = Direction.Long then
          trade.allocated * (current_price / trade.entry_price)
        else
          trade.allocated * (trade.entry_price / current_price)
      p.cash + trade_value
  | none => p.cash

/-- `Portfolio::update`: push one equity sample. -/
def Portfolio.update (p : Portfolio) (date : Nat) (price : ℚ) : Portfolio :=
  { p with equity_curve := p.equity_curve ++ [(date, p.total_equity price)] }

/-- `Portfolio::enter_trade` (the `log_level` parameter only selects log
lines, never state changes, and is omitted). -/
def Portfolio.enter_trade (p : Portfolio) (date : Nat) (price : ℚ)
    (direction : Direction) : Portfolio :=
  if p.open_trade.isSome then p
  else
    let allocated := p.cash * p.trade_fraction
    if allocated ≤ 0 then p
    else
      let effective_entry_price :=
        if direction = Direction.Long then price * (1 + p.slippage)
        else price * (1 - p.slippage)
      let entry_commission := (p.commission_rate * allocated) / 100
      { p with
        cash := p.cash - allocated
        open_trade := some
          { entry_date := date
            exit_date := none
            entry_price := effective_entry_price
            exit_price := none
            direction := direction
            allocated := allocated
            profit := none
            commission := entry_commission } }

/-- `Portfolio::exit_trade`. -/
def Portfolio.exit_trade (p : Portfolio) (date : Nat) (price : ℚ) : Portfolio :=
  match p.open_trade with
  | none => p
  | some trade =>
      let effective_exit_price :=
        if trade.direction = Direction.Long then price * (1 - p.slippage)
        else price * (1 + p.slippage)
      let exit_commission := (p.commission_rate * trade.allocated) / 100
      let raw_profit :=
        if trade.direction = Direction.Long then
          trade.allocated *
            ((effective_exit_price - trade.entry_price) / trade.entry_price)
        else
          trade.allocated *
            ((trade.entry_price - effective_exit_price) / trade.entry_price)
      let total_commission := trade.commission + exit_commission
      let net_profit := raw_profit - total_commission
      let closed : Trade :=
        { trade with
          exit_date := some date
          exit_price := some effective_exit_price
          profit := some net_profit
          commission := total_commission }
      { p with
        cash := p.cash + (trade.allocated + net_profit)
        open_trade := none
        closed_trades := p.closed_trades ++ [closed] }

/-- `SimpleStrategy` from src/strategy.rs. -/
structure SimpleStrategy where
  position : Direction
  sma_window : Nat
  prices : List ℚ
deriving DecidableEq, Repr

/-- `SimpleStrategy::new`. -/
def SimpleStrategy.new (sma_window : Nat) : SimpleStrategy :=
  { position := Direction.Flat, sma_window := sma_window, prices := [] }

/-- `SimpleStrategy::calculate_sma`: mean of the last `sma_window` prices,
`none` while the buffer is short. -/
def SimpleStrategy.calculate_sma (s : SimpleStrategy) : Option ℚ :=
  if s.prices.length < s.sma_window then none
  else
    some (((s.prices.drop (s.prices.length - s.sma_window)).sum) /
      (s.sma_window : ℚ))

/-- `SimpleStrategy::on_tick` (`&mut self` made explicit: returns the new
strategy state together with the emitted signal). -/
def SimpleStrategy.on_tick (s : SimpleStrategy) (kline : Kline) :
    SimpleStrategy × Option Signal :=
  let s' : SimpleStrategy := { s with prices := s.prices ++ [kline.close] }
  match s'.calculate_sma with
  | some sma =>
      if kline.close > sma ∧ s'.position ≠ Direction.Long then
        ({ s' with position := Direction.Long }, some Signal.Buy)
      else if kline.close < sma ∧ s'.position ≠ Direction.Short then
        ({ s' with position := Direction.Short }, some Signal.Sell)
      else (s', some Signal.Hold)
  | none => (s', some Signal.Hold)

/-- `Metrics` from src/testing.rs. -/
structure Metrics where
  total_trades : Nat
  total_profit : ℚ
  total_commission : ℚ
  win_rate : ℚ
  avg_profit : ℚ
  avg_loss : ℚ
  max_drawdown : ℚ
  max_drawdown_duration : Nat
deriving DecidableEq, Repr

/-- `Metrics::new`: the all-zero snapshot. -/
def Metrics.zero : Metrics :=
  { total_trades := 0
    total_profit := 0
    total_commission := 0
    win_rate := 0
    avg_profit := 0
    avg_loss := 0
    max_drawdown := 0
    max_drawdown_duration := 0 }

/-- The running accumulator of the loop in `Metrics::compute`. -/
structure MetricsAcc where
  total_profit : ℚ
  total_commission : ℚ
  total_wins : Nat
  total_losses : Nat
  max_drawdown : ℚ
  max_drawdown_duration : Nat
  current_drawdown : ℚ
  current_drawdown_duration : Nat
deriving DecidableEq, Repr

/-- Initial accumulator of `Metrics::compute`. -/
def MetricsAcc.init : MetricsAcc :=
  { total_profit := 0
    total_commission := 0
    total_wins := 0
    total_losses := 0
    max_drawdown := 0
    max_drawdown_duration := 0
    current_drawdown := 0
    current_drawdown_duration := 0 }

/-- One iteration of the loop of `Metrics::compute`; `none` models the panic
of `trade.profit.unwrap()` on an unset profit. -/
def metricsStep (acc : MetricsAcc) (trade : Trade) : Option MetricsAcc :=
  match trade.profit with
  | none => none
  | some profit =>
      let acc1 : MetricsAcc :=
        { acc with
          total_profit := acc.total_profit + profit
          total_commission := acc.total_commission + trade.commission }
      let acc2 : MetricsAcc :=
        if profit > 0 then { acc1 with total_wins := acc1.total_wins + 1 }
        else { acc1 with total_losses := acc1.total_losses + 1 }
      some (if profit < 0 then
        { acc2 with
          current_drawdown := acc2.current_drawdown + profit
          current_drawdown_duration := acc2.current_drawdown_duration + 1 }
      else if acc2.current_drawdown < acc2.max_drawdown then
        { acc2 with
          max_drawdown := acc2.current_drawdown
          max_drawdown_duration := acc2.current_drawdown_duration
          current_drawdown := 0
          current_drawdown_duration := 0 }
      else
        { acc2 with current_drawdown := 0, current_drawdown_duration := 0 })

/-- The whole loop of `Metrics::compute`. -/
def metricsFold : MetricsAcc → List Trade → Option MetricsAcc
  | acc, [] => some acc
  | acc, t :: ts =>
      match metricsStep acc t with
      | none => none
      | some acc' => metricsFold acc' ts

/-- `Metrics::compute` (modelled as building a fresh snapshot; the Rust
mutates `self` in place with exactly these values). -/
def Metrics.compute (trade_list : List Trade) : Option Metrics :=
  match metricsFold MetricsAcc.init trade_list with
  | none => none
  | some acc =>
      let total_trades := trade_list.length
      let win_rate : ℚ :=
        if total_trades > 0 then (acc.total_wins : ℚ) / (total_trades : ℚ)
        else 0
      let avg_profit : ℚ :=
        if acc.total_wins > 0 then acc.total_profit / (acc.total_wins : ℚ)
        else 0
      let avg_loss : ℚ :=
        if acc.total_losses > 0 then acc.total_profit / (acc.total_losses : ℚ)
        else 0
      some
        { total_trades := total_trades
          total_profit := acc.total_profit
          total_commission := acc.total_commission
          win_rate := win_rate
          avg_profit := avg_profit
          avg_loss := avg_loss
          max_drawdown := acc.max_drawdown
          max_drawdown_duration := acc.max_drawdown_duration }

/-- The fields of `Config` (src/config.rs) that reach the simulation
state; strings, headers and log settings only feed the omitted I/O. -/
structure Config where
  base_funds : ℚ
  transaction_fee : ℚ
  slippage : ℚ
deriving DecidableEq, Repr

/-- `SessionRecap` from src/testing.rs. -/
structure SessionRecap where
  trades : List Trade
  equity_curve : List (Nat × ℚ)
  metrics : Metrics
deriving DecidableEq, Repr

/-- One iteration of the bar loop of `run_simulation`: feed the bar to the
strategy, route the signal, and (except on `None`) mark equity. -/
def stepSim (pf : Portfolio) (st : SimpleStrategy) (kline : Kline) :
    Portfolio × SimpleStrategy :=
  match st.on_tick kline with
  | (st', some Signal.Buy) =>
      ((pf.enter_trade kline.timestamp kline.close Direction.Long).update
        kline.timestamp kline.close, st')
  | (st', some Signal.Sell) =>
      ((pf.exit_trade kline.timestamp kline.close).update
        kline.timestamp kline.close, st')
  | (st', some Signal.Hold) =>
      (pf.update kline.timestamp kline.close, st')
  | (st', none) => (pf, st')

/-- The bar loop of `run_simulation`: fold all bars through `stepSim`
starting from the fresh portfolio (trade fraction 0.1) and the window-14
strategy, exactly as `run_simulation` constructs them. -/
def simFold (config : Config) (klines : List Kline) :
    Portfolio × SimpleStrategy :=
  klines.foldl (fun ps k => stepSim ps.1 ps.2 k)
    (Portfolio.new config.base_funds config.transaction_fee config.slippage
      (1 / 10), SimpleStrategy.new 14)

/-- The end-of-run force-exit of `run_simulation`; `none` models the panic
of `klines.last().unwrap()` on an empty bar list. -/
def forceExit (klines : List Kline) (pf : Portfolio) : Option Portfolio :=
  if pf.open_trade.isSome then
    (klines.getLast?).map (fun k => pf.exit_trade k.timestamp k.close)
  else some pf

/-- `run_simulation` from src/testing.rs; `none` models a panic of one of
its internal `unwrap`s (`klines.last().unwrap()` and the profit unwraps
inside `Metrics::compute`). -/
def run_simulation (config : Config) (klines : List Kline) :
    Option SessionRecap :=
  match forceExit klines (simFold config klines).1 with
  | none => none
  | some pf2 =>
      match Metrics.compute pf2.closed_trades with
      | none => none
      | some m => some ⟨pf2.closed_trades, pf2.equity_curve, m⟩

/-- One driver-visible portfolio operation, for stating invariants over
arbitrary operation sequences. -/
inductive PortOp where
  | enterOp (date : Nat) (price : ℚ) (dir : Direction)
  | exitOp (date : Nat) (price : ℚ)
  | markOp (date : Nat) (price : ℚ)
deriving DecidableEq, Repr

/-- Apply one portfolio operation. -/
def applyOp (pf : Portfolio) : PortOp → Portfolio
  | PortOp.enterOp d p dir => pf.enter_trade d p dir
  | PortOp.exitOp d p => pf.exit_trade d p
  | PortOp.markOp d p => pf.update d p

/-- Whether an operation is an exit. -/
def PortOp.isExitOp : PortOp → Bool
  | PortOp.exitOp _ _ => true
  | _ => false

/-- Run a sequence of portfolio operations. -/
def runOps (pf : Portfolio) (ops : List PortOp) : Portfolio :=
  ops.foldl applyOp pf

/-- A closed trade has all its exit fields set. -/
def checkClosed (tr : Trade) : Bool :=
  tr.exit_date.isSome && tr.exit_price.isSome && tr.profit.isSome

/-- Concrete open Long trade used to instantiate C7. -/
def c7Trade : Trade :=
  { entry_date := 0
    exit_date := none
    entry_price := 10
    exit_price := none
    direction := Direction.Long
    allocated := 100
    profit := none
    commission := 0 }

/-- Concrete portfolio with an open Long trade used to instantiate C7. -/
def c7Pf : Portfolio :=
  { cash := 900
    open_trade := some c7Trade
    closed_trades := []
    equity_curve := []
    commission_rate := 0
    slippage := 0
    trade_fraction := 1 / 10 }

/-- Concrete portfolio with an open trade and zero cash used for C9. -/
def c9Pf : Portfolio :=
  { cash := 0
    open_trade := some c7Trade
    closed_trades := []
    equity_curve := []
    commission_rate := 0
    slippage := 0
    trade_fraction := 1 / 10 }

/-- A concrete bar with constant price 10. -/
def c1Kline : Kline :=
  { timestamp := 0, openPrice := 10, high := 10, low := 10, close := 10
    volume := 0 }

/-- A concrete run configuration. -/
def c1Config : Config := { base_funds := 1000, transaction_fee := 0
                           slippage := 0 }

/-- Two concrete bars, fewer than the driver's window of 14. -/
def c4Klines : List Kline :=
  [{ timestamp := 0, openPrice := 10, high := 10, low := 10, close := 10
     volume := 0 },
   { timestamp := 1, openPrice := 11, high := 11, low := 11, close := 11
     volume := 0 }]

/-- A concrete exit-free operation sequence used to instantiate C6. -/
def c6Ops : List PortOp :=
  [PortOp.enterOp 0 100 Direction.Long, PortOp.markOp 1 110,
   PortOp.enterOp 2 120 Direction.Long]

/-- A concrete losing trade with net profit -50, used for C2. -/
def c2LossTrade : Trade :=
  { entry_date := 0
    exit_date := some 1
    entry_price := 100
    exit_price := some 50
    direction := Direction.Long
    allocated := 100
    profit := some (-50)
    commission := 0 }

/-- A concrete winning trade with net profit 10, used for C2. -/
def c2WinTrade : Trade :=
  { entry_date := 2
    exit_date := some 3
    entry_price := 100
    exit_price := some 110
    direction := Direction.Long
    allocated := 100
    profit := some 10
    commission := 0 }

/-- C5: with initial cash 1000, trade_fraction 0.1, slippage 0 and
commission_rate 0, entering Long at price 100 allocates 100, leaves cash
900 and sets entry_price 100; exiting at 110 yields net_profit 10 and
final cash 1010. -/
theorem C5_long_roundtrip_example :
    ((Portfolio.new 1000 0 0 (1 / 10)).enter_trade 0 100
        Direction.Long).open_trade.map Trade.allocated = some 100 ∧
    ((Portfolio.new 1000 0 0 (1 / 10)).enter_trade 0 100
        Direction.Long).cash = 900 ∧
    ((Portfolio.new 1000 0 0 (1 / 10)).enter_trade 0 100
        Direction.Long).open_trade.map Trade.entry_price = some 100 ∧
    (((Portfolio.new 1000 0 0 (1 / 10)).enter_trade 0 100
        Direction.Long).exit_trade 1 110).closed_trades.map Trade.profit =
      [some 10] ∧
    (((Portfolio.new 1000 0 0 (1 / 10)).enter_trade 0 100
        Direction.Long).exit_trade 1 110).cash = 1010 := by
  refine ⟨?_, ?_, ?_, ?_, ?_⟩ <;>
    simp [Portfolio.new, Portfolio.enter_trade, Portfolio.exit_trade] <;>
    norm_num

/-- C7: every equity sample recorded by `update` (the spec's `mark`) equals
`cash` when no trade is open, and otherwise `cash + allocated * price/entry_price`
for a Long trade and `cash + allocated * entry_price/price` for a Short trade;
the open-position valuation applies no slippage or commission. -/
theorem C7_mark_equity_formula (pf : Portfolio) (d : Nat) (price : ℚ) :
    (pf.update d price).equity_curve =
      pf.equity_curve ++ [(d, pf.total_equity price)] ∧
    (pf.open_trade = none → pf.total_equity price = pf.cash) ∧
    (∀ tr, pf.open_trade = some tr →
      (tr.direction = Direction.Long →
        pf.total_equity price =
          pf.cash + tr.allocated * (price / tr.entry_price)) ∧
      (tr.direction = Direction.Short →
        pf.total_equity price =
          pf.cash + tr.allocated * (tr.entry_price / price))) := by
  refine ⟨rfl, ?_, ?_⟩
  · intro h
    simp [Portfolio.total_equity, h]
  · intro tr htr
    constructor
    · intro hdir
      simp [Portfolio.total_equity, htr, hdir]
    · intro hdir
      simp [Portfolio.total_equity, htr, hdir]

/-- C7 witness: the mark formula evaluated on a concrete open Long trade. -/
theorem C7_mark_equity_formula_witness :
    c7Pf.total_equity 20 = 900 + 100 * ((20 : ℚ) / 10) :=
  ((C7_mark_equity_formula c7Pf 5 20).2.2 c7Trade rfl).1 rfl

/-- Exiting with no open trade leaves the portfolio unchanged. -/
theorem exit_trade_noop (pf : Portfolio) (d : Nat) (p : ℚ)
    (h : pf.open_trade = none) : pf.exit_trade d p = pf := by
  simp [Portfolio.exit_trade, h]

/-- After any `exit_trade`, no trade is open. -/
theorem exit_trade_open_none (pf : Portfolio) (d : Nat) (p : ℚ) :
    (pf.exit_trade d p).open_trade = none := by
  cases hop : pf.open_trade with
  | none => simp [Portfolio.exit_trade, hop]
  | some tr => simp [Portfolio.exit_trade, hop]

/-- C9: the three non-fatal domain conditions are no-ops on portfolio state
(enter while open, enter with non-positive allocation, exit with nothing
open), and exiting twice without an intervening enter mutates state once. -/
theorem C9_noop_conditions (pf : Portfolio) (d d1 d2 : Nat) (p p1 p2 : ℚ)
    (dir : Direction) :
    (pf.open_trade.isSome → pf.enter_trade d p dir = pf) ∧
    (pf.cash * pf.trade_fraction ≤ 0 → pf.enter_trade d p dir = pf) ∧
    (pf.open_trade = none → pf.exit_trade d p = pf) ∧
    (pf.exit_trade d1 p1).exit_trade d2 p2 = pf.exit_trade d1 p1 := by
  refine ⟨?_, ?_, ?_, ?_⟩
  · intro h
    simp [Portfolio.enter_trade, h]
  · intro h
    cases hop : pf.open_trade with
    | some tr => simp [Portfolio.enter_trade, hop]
    | none => simp [Portfolio.enter_trade, hop, h]
  · intro h
    exact exit_trade_noop pf d p h
  · exact exit_trade_noop _ d2 p2 (exit_trade_open_none pf d1 p1)


/-- C9 witness: the no-op conditions evaluated on a concrete portfolio. -/
theorem C9_noop_conditions_witness :
    c9Pf.enter_trade 3 50 Direction.Long = c9Pf ∧
    ((c9Pf.exit_trade 3 50).exit_trade 4 60 = c9Pf.exit_trade 3 50) := by
  have h := C9_noop_conditions c9Pf 3 3 4 50 50 60 Direction.Long
  exact ⟨h.1 rfl, h.2.2.2⟩

/-- C3 counterexample: with commission_rate 10, cash 1000, trade_fraction 1,
entering Long at price 100 allocates 1000 but charges entry commission 100,
not the plain product `commission_rate * allocated = 10 * 1000`. -/
theorem C3_counterexample :
    ((Portfolio.new 1000 10 0 1).enter_trade 0 100 Direction.Long).open_trade.map
        Trade.commission = some 100 ∧
    (100 : ℚ) ≠ 10 * 1000 := by
  constructor
  · norm_num [Portfolio.new, Portfolio.enter_trade]
  · norm_num

/-- C3 (amended): entry and exit each charge
`commission_rate * allocated / 100` (a percent-scaled rate), and the closed
trade's commission field is the sum of the two charges. -/
theorem C3_commission_percent (pf : Portfolio) (d1 d2 : Nat) (p1 p2 : ℚ)
    (dir : Direction) (hopen : pf.open_trade = none)
    (halloc : 0 < pf.cash * pf.trade_fraction) :
    (pf.enter_trade d1 p1 dir).open_trade.map Trade.commission =
      some (pf.commission_rate * (pf.cash * pf.trade_fraction) / 100) ∧
    ((pf.enter_trade d1 p1 dir).exit_trade d2 p2).closed_trades.map
        Trade.commission =
      pf.closed_trades.map Trade.commission ++
        [pf.commission_rate * (pf.cash * pf.trade_fraction) / 100 +
          pf.commission_rate * (pf.cash * pf.trade_fraction) / 100] := by
  have hno : ¬ (pf.cash * pf.trade_fraction ≤ 0) := not_le.mpr halloc
  constructor
  · simp [Portfolio.enter_trade, hopen, hno]
  · simp [Portfolio.enter_trade, Portfolio.exit_trade, hopen, hno]

/-- C3 witness: the percent-scaled commission law at commission_rate 10,
cash 1000, trade_fraction 1, entering at 100 and exiting at 110. -/
theorem C3_commission_percent_witness :
    ((Portfolio.new 1000 10 0 1).enter_trade 0 100 Direction.Long).open_trade.map
        Trade.commission = some (10 * ((1000 : ℚ) * 1) / 100) ∧
    (((Portfolio.new 1000 10 0 1).enter_trade 0 100
          Direction.Long).exit_trade 1 110).closed_trades.map Trade.commission =
      [] ++ [10 * ((1000 : ℚ) * 1) / 100 + 10 * ((1000 : ℚ) * 1) / 100] :=
  C3_commission_percent (Portfolio.new 1000 10 0 1) 0 1 100 110 Direction.Long
    rfl (by norm_num [Portfolio.new])

/-- C6 counterexample: with commission_rate 0, slippage 0, trade_fraction 1
and positive prices, entering Short at 100 and exiting at 1000 drives cash
from 1000 down to -8000: a sequence of enter and exit can make cash
negative. -/
theorem C6_counterexample :
    (((Portfolio.new 1000 0 0 1).enter_trade 0 100 Direction.Short).exit_trade
        1 1000).cash = -8000 ∧ (-8000 : ℚ) < 0 := by
  constructor
  · norm_num [Portfolio.new, Portfolio.enter_trade, Portfolio.exit_trade]
    rw [if_neg (by decide : ¬ (Direction.Short = Direction.Long))]
    norm_num
  · norm_num

/-- `enter_trade` never makes cash negative: the allocation is
`cash * trade_fraction` and is skipped when non-positive. -/
theorem enter_trade_cash_nonneg (pf : Portfolio) (d : Nat) (p : ℚ)
    (dir : Direction) (hc : 0 ≤ pf.cash) (hf : pf.trade_fraction ≤ 1) :
    0 ≤ (pf.enter_trade d p dir).cash := by
  by_cases h1 : pf.open_trade.isSome
  · simpa [Portfolio.enter_trade, h1] using hc
  · by_cases h2 : pf.cash * pf.trade_fraction ≤ 0
    · simpa [Portfolio.enter_trade, h1, h2] using hc
    · have h3 : pf.cash * pf.trade_fraction ≤ pf.cash * 1 :=
        mul_le_mul_of_nonneg_left hf hc
      rw [mul_one] at h3
      simp [Portfolio.enter_trade, h1, h2]
      linarith

/-- `enter_trade` never changes the trade fraction. -/
theorem enter_trade_fraction (pf : Portfolio) (d : Nat) (p : ℚ)
    (dir : Direction) :
    (pf.enter_trade d p dir).trade_fraction = pf.trade_fraction := by
  by_cases h1 : pf.open_trade.isSome
  · simp [Portfolio.enter_trade, h1]
  · by_cases h2 : pf.cash * pf.trade_fraction ≤ 0
    · simp [Portfolio.enter_trade, h1, h2]
    · simp [Portfolio.enter_trade, h1, h2]

/-- Running only enter and mark operations keeps cash non-negative. -/
theorem runOps_cash_nonneg (ops : List PortOp) (pf : Portfolio)
    (hc : 0 ≤ pf.cash) (hf : pf.trade_fraction ≤ 1)
    (hops : ∀ op ∈ ops, op.isExitOp = false) :
    0 ≤ (runOps pf ops).cash := by
  induction ops generalizing pf with
  | nil => exact hc
  | cons op ops ih =>
      have hop := hops op (List.mem_cons_self _ _)
      have hrest : ∀ o ∈ ops, o.isExitOp = false :=
        fun o ho => hops o (List.mem_cons_of_mem _ ho)
      cases op with
      | enterOp d p dir =>
          exact ih _ (enter_trade_cash_nonneg pf d p dir hc hf)
            (by show (pf.enter_trade d p dir).trade_fraction ≤ 1
                rw [enter_trade_fraction]; exact hf) hrest
      | exitOp d p => simp [PortOp.isExitOp] at hop
      | markOp d p => exact ih _ hc hf hrest

/-- C6 (amended): starting from non-negative cash with trade_fraction at
most 1, every sequence of enter and mark operations keeps cash
non-negative — in particular no single enter call makes cash negative —
but an exit operation can drive cash below zero. -/
theorem C6_enter_mark_cash_nonneg (pf : Portfolio) (ops : List PortOp)
    (d : Nat) (p : ℚ) (dir : Direction)
    (hc : 0 ≤ pf.cash) (hf : pf.trade_fraction ≤ 1)
    (hops : ∀ op ∈ ops, op.isExitOp = false) :
    0 ≤ (runOps pf ops).cash ∧ 0 ≤ (pf.enter_trade d p dir).cash :=
  ⟨runOps_cash_nonneg ops pf hc hf hops,
   enter_trade_cash_nonneg pf d p dir hc hf⟩

/-- C6 witness: the enter/mark cash invariant evaluated on a concrete
exit-free operation sequence. -/
theorem C6_enter_mark_cash_nonneg_witness :
    0 ≤ (runOps (Portfolio.new 1000 0 0 (1 / 10)) c6Ops).cash ∧
    0 ≤ ((Portfolio.new 1000 0 0 (1 / 10)).enter_trade 5 50
      Direction.Long).cash :=
  C6_enter_mark_cash_nonneg (Portfolio.new 1000 0 0 (1 / 10)) c6Ops 5 50
    Direction.Long (by norm_num [Portfolio.new])
    (by norm_num [Portfolio.new]) (by decide)

/-- While the price buffer is short of the window even after the push,
`on_tick` appends the close and emits `Hold`. -/
theorem on_tick_warmup (s : SimpleStrategy) (k : Kline)
    (h : s.prices.length + 1 < s.sma_window) :
    s.on_tick k = ({ s with prices := s.prices ++ [k.close] },
      some Signal.Hold) := by
  simp [SimpleStrategy.on_tick, SimpleStrategy.calculate_sma, h]

/-- C1 counterexample: on the very first tick of a window-2 strategy,
`on_tick` returns `Some Hold`, not `None`, and the driver run over one
warm-up bar appends one equity sample instead of none. -/
theorem C1_counterexample :
    ((SimpleStrategy.new 2).on_tick c1Kline).2 ≠ none ∧
    (run_simulation c1Config [c1Kline]).map (fun r => r.equity_curve.length) =
      some 1 := by
  constructor
  · decide
  · decide

/-- C1 (amended): on every tick on which the buffer holds fewer than N
closes after appending the current close, `on_tick` returns `Some Hold`
(never `None`); consequently the driver takes no portfolio action on that
tick — cash, the open trade and the closed ledger are unchanged — but it
does append one equity sample. -/
theorem C1_on_tick_warmup_hold (s : SimpleStrategy) (k : Kline)
    (pf : Portfolio) (h : s.prices.length + 1 < s.sma_window) :
    (s.on_tick k).2 = some Signal.Hold ∧
    (stepSim pf s k).1.cash = pf.cash ∧
    (stepSim pf s k).1.open_trade = pf.open_trade ∧
    (stepSim pf s k).1.closed_trades = pf.closed_trades ∧
    (stepSim pf s k).1.equity_curve =
      pf.equity_curve ++ [(k.timestamp, pf.total_equity k.close)] := by
  have ht := on_tick_warmup s k h
  refine ⟨by rw [ht], ?_, ?_, ?_, ?_⟩ <;>
    simp [stepSim, ht, Portfolio.update]

/-- C1 witness: the warm-up behaviour on a concrete window-3 strategy and
portfolio. -/
theorem C1_on_tick_warmup_hold_witness :
    ((SimpleStrategy.new 3).on_tick c1Kline).2 = some Signal.Hold ∧
    (stepSim (Portfolio.new 1000 0 0 (1 / 10)) (SimpleStrategy.new 3)
      c1Kline).1.cash = 1000 := by
  have h := C1_on_tick_warmup_hold (SimpleStrategy.new 3) c1Kline
    (Portfolio.new 1000 0 0 (1 / 10)) (by decide)
  exact ⟨h.1, h.2.1⟩

/-- C4 counterexample: a run over two bars (fewer than the window of 14)
produces an equity curve with two samples, not an empty one. -/
theorem C4_counterexample :
    (run_simulation c1Config c4Klines).map (fun r => r.equity_curve.length) =
      some 2 ∧ (2 : Nat) ≠ 0 := by
  constructor
  · decide
  · decide

/-- C2 counterexample: a ledger with exactly one trade of net profit -50
yields max_drawdown = 0 and max_drawdown_duration = 0, not -50 and 1: the
trailing losing streak is never folded into the maximum. -/
theorem C2_counterexample :
    (Metrics.compute [c2LossTrade]).map
      (fun m => (m.max_drawdown, m.max_drawdown_duration)) = some (0, 0) ∧
    ¬ ((0 : ℚ) = -50 ∧ (0 : Nat) = 1) := by
  constructor
  · norm_num [Metrics.compute, metricsFold, metricsStep, MetricsAcc.init,
      c2LossTrade]
  · norm_num

/-- C2 (amended): a losing streak is folded into max_drawdown only when a
later non-losing trade closes it; a ledger holding a single losing trade
reports max_drawdown = 0 and duration 0, and only after a following
non-losing trade does it report the streak (the loss p, duration 1). -/
theorem C2_trailing_streak_dropped (t w : Trade) (p q : ℚ)
    (ht : t.profit = some p) (hw : w.profit = some q) (hp : p < 0)
    (hq : 0 ≤ q) :
    (Metrics.compute [t]).map
      (fun m => (m.max_drawdown, m.max_drawdown_duration)) = some (0, 0) ∧
    (Metrics.compute [t, w]).map
      (fun m => (m.max_drawdown, m.max_drawdown_duration)) = some (p, 1) := by
  have hp' : ¬ p > 0 := not_lt.mpr hp.le
  have hq' : ¬ q < 0 := not_lt.mpr hq
  constructor
  · simp [Metrics.compute, metricsFold, metricsStep, MetricsAcc.init, ht,
      hp, hp']
  · by_cases hq2 : q > 0
    · simp [Metrics.compute, metricsFold, metricsStep, MetricsAcc.init, ht,
        hw, hp, hp', hq', hq2]
    · simp [Metrics.compute, metricsFold, metricsStep, MetricsAcc.init, ht,
        hw, hp, hp', hq', hq2]

/-- C2 witness: the amended drawdown behaviour on the concrete -50 loss
and a following +10 win. -/
theorem C2_trailing_streak_dropped_witness :
    (Metrics.compute [c2LossTrade]).map
      (fun m => (m.max_drawdown, m.max_drawdown_duration)) = some (0, 0) ∧
    (Metrics.compute [c2LossTrade, c2WinTrade]).map
      (fun m => (m.max_drawdown, m.max_drawdown_duration)) = some (-50, 1) :=
  C2_trailing_streak_dropped c2LossTrade c2WinTrade (-50) 10 rfl rfl
    (by norm_num) (by norm_num)

/-- Folding bars that all fall inside the strategy's warm-up leaves the
portfolio unchanged apart from one equity sample per bar. -/
theorem warmup_foldl (klines : List Kline) (pf : Portfolio)
    (st : SimpleStrategy)
    (h : st.prices.length + klines.length < st.sma_window) :
    (klines.foldl (fun ps k => stepSim ps.1 ps.2 k) (pf, st)).1.cash =
      pf.cash ∧
    (klines.foldl (fun ps k => stepSim ps.1 ps.2 k) (pf, st)).1.open_trade =
      pf.open_trade ∧
    (klines.foldl (fun ps k => stepSim ps.1 ps.2 k)
      (pf, st)).1.closed_trades = pf.closed_trades ∧
    (klines.foldl (fun ps k => stepSim ps.1 ps.2 k)
      (pf, st)).1.equity_curve.length =
      pf.equity_curve.length + klines.length := by
  induction klines generalizing pf st with
  | nil => simp
  | cons k ks ih =>
      have hk : st.prices.length + 1 < st.sma_window := by
        simp only [List.length_cons] at h
        omega
      have ht := on_tick_warmup st k hk
      have hstep : stepSim pf st k = (pf.update k.timestamp k.close,
          { st with prices := st.prices ++ [k.close] }) := by
        simp [stepSim, ht]
      have ih' := ih (pf.update k.timestamp k.close)
        ({ st with prices := st.prices ++ [k.close] })
        (by simp only [List.length_cons] at h
            simp only [List.length_append, List.length_cons]
            simp
            omega)
      rw [List.foldl_cons]
      simp only [hstep]
      refine ⟨?_, ?_, ?_, ?_⟩
      · rw [ih'.1]; rfl
      · rw [ih'.2.1]; rfl
      · rw [ih'.2.2.1]; rfl
      · rw [ih'.2.2.2]
        simp [Portfolio.update]
        omega

/-- C4 (amended): a run over fewer bars than the window of 14 (zero bars
included) completes without failing, with an empty closed-trade ledger and
all-zero metrics; its equity curve holds one sample per bar, so it is
empty exactly when there are zero bars. -/
theorem C4_short_run_recap (config : Config) (klines : List Kline)
    (h : klines.length < 14) :
    ∃ recap, run_simulation config klines = some recap ∧
      recap.trades = [] ∧ recap.metrics = Metrics.zero ∧
      recap.equity_curve.length = klines.length := by
  have hw := warmup_foldl klines
    (Portfolio.new config.base_funds config.transaction_fee config.slippage
      (1 / 10)) (SimpleStrategy.new 14)
    (by simp [SimpleStrategy.new]; omega)
  obtain ⟨hcash, hopen, hclosed, heq⟩ := hw
  have hopen' : (simFold config klines).1.open_trade = none := by
    rw [simFold, hopen]; rfl
  have hclosed' : (simFold config klines).1.closed_trades = [] := by
    rw [simFold, hclosed]; rfl
  have heq' : (simFold config klines).1.equity_curve.length =
      klines.length := by
    rw [simFold, heq]; simp [Portfolio.new]
  have hfe : forceExit klines (simFold config klines).1 =
      some (simFold config klines).1 := by
    simp [forceExit, hopen']
  refine ⟨⟨[], (simFold config klines).1.equity_curve, Metrics.zero⟩, ?_,
    rfl, rfl, by simpa using heq'⟩
  rw [run_simulation, hfe]
  simp [hclosed', Metrics.compute, metricsFold, MetricsAcc.init,
    Metrics.zero]

/-- C4 witness: the short-run recap shape on a concrete two-bar run. -/
theorem C4_short_run_recap_witness :
    (run_simulation c1Config c4Klines).map SessionRecap.trades = some [] ∧
    (run_simulation c1Config c4Klines).map SessionRecap.metrics =
      some Metrics.zero ∧
    (run_simulation c1Config c4Klines).map
      (fun r => r.equity_curve.length) = some 2 := by
  obtain ⟨recap, hr, htr, hm, he⟩ :=
    C4_short_run_recap c1Config c4Klines (by decide)
  rw [hr]
  refine ⟨by simp [htr], by simp [hm], by simp [he]; rfl⟩

/-- `enter_trade` never touches the closed ledger. -/
theorem enter_trade_closed (pf : Portfolio) (d : Nat) (p : ℚ)
    (dir : Direction) :
    (pf.enter_trade d p dir).closed_trades = pf.closed_trades := by
  by_cases h1 : pf.open_trade.isSome
  · simp [Portfolio.enter_trade, h1]
  · by_cases h2 : pf.cash * pf.trade_fraction ≤ 0 <;>
      simp [Portfolio.enter_trade, h1, h2]

/-- `exit_trade` appends only fully finalized trades to the ledger. -/
theorem exit_trade_closed_all (pf : Portfolio) (d : Nat) (p : ℚ)
    (h : pf.closed_trades.all checkClosed = true) :
    (pf.exit_trade d p).closed_trades.all checkClosed = true := by
  cases hop : pf.open_trade with
  | none => simpa [Portfolio.exit_trade, hop] using h
  | some tr => simp [Portfolio.exit_trade, hop, checkClosed, h]

/-- `applyOp` preserves the finalized-ledger invariant. -/
theorem applyOp_closed_all (pf : Portfolio) (op : PortOp)
    (h : pf.closed_trades.all checkClosed = true) :
    (applyOp pf op).closed_trades.all checkClosed = true := by
  cases op with
  | enterOp d p dir =>
      show (pf.enter_trade d p dir).closed_trades.all checkClosed = true
      rw [enter_trade_closed]
      exact h
  | exitOp d p => exact exit_trade_closed_all pf d p h
  | markOp d p => exact h

/-- Every operation sequence preserves the finalized-ledger invariant. -/
theorem runOps_closed_all (ops : List PortOp) (pf : Portfolio)
    (h : pf.closed_trades.all checkClosed = true) :
    (runOps pf ops).closed_trades.all checkClosed = true := by
  induction ops generalizing pf with
  | nil => exact h
  | cons op ops ih => exact ih _ (applyOp_closed_all pf op h)

/-- C8: after every sequence of enter, exit and mark operations from a
fresh portfolio, at most one trade is open (the open slot is `none` or a
single trade) and every trade in the closed ledger has its exit_date,
exit_price and profit fields set. -/
theorem C8_closed_trades_finalized (c r s f : ℚ) (ops : List PortOp) :
    ((runOps (Portfolio.new c r s f) ops).open_trade = none ∨
      ∃ tr, (runOps (Portfolio.new c r s f) ops).open_trade = some tr) ∧
    (runOps (Portfolio.new c r s f) ops).closed_trades.all checkClosed =
      true := by
  constructor
  · cases h : (runOps (Portfolio.new c r s f) ops).open_trade with
    | none => exact Or.inl rfl
    | some tr => exact Or.inr ⟨tr, rfl⟩
  · exact runOps_closed_all ops _ rfl

/-- One driver tick preserves the finalized-ledger invariant. -/
theorem stepSim_closed_all (pf : Portfolio) (st : SimpleStrategy)
    (k : Kline) (h : pf.closed_trades.all checkClosed = true) :
    (stepSim pf st k).1.closed_trades.all checkClosed = true := by
  unfold stepSim
  rcases hsig : st.on_tick k with ⟨st', sig⟩
  rcases sig with _ | sig
  · exact h
  · cases sig with
    | Buy =>
        show ((pf.enter_trade k.timestamp k.close Direction.Long).update
          k.timestamp k.close).closed_trades.all checkClosed = true
        show (pf.enter_trade k.timestamp k.close
          Direction.Long).closed_trades.all checkClosed = true
        rw [enter_trade_closed]
        exact h
    | Sell =>
        show ((pf.exit_trade k.timestamp k.close).update k.timestamp
          k.close).closed_trades.all checkClosed = true
        exact exit_trade_closed_all pf _ _ h
    | Hold => exact h

/-- The whole bar loop preserves the finalized-ledger invariant. -/
theorem simFold_closed_all (config : Config) (klines : List Kline) :
    (simFold config klines).1.closed_trades.all checkClosed = true := by
  suffices hgen : ∀ (l : List Kline) (pf : Portfolio)
      (st : SimpleStrategy), pf.closed_trades.all checkClosed = true →
      ((l.foldl (fun ps k => stepSim ps.1 ps.2 k)
        (pf, st)).1.closed_trades.all checkClosed = true) by
    exact hgen klines _ _ rfl
  intro l
  induction l with
  | nil => intro pf st h; exact h
  | cons k ks ih =>
      intro pf st h
      rw [List.foldl_cons]
      exact ih _ _ (stepSim_closed_all pf st k h)

/-- A ledger of finalized trades has every profit field set. -/
theorem all_checkClosed_profit (l : List Trade)
    (h : l.all checkClosed = true) :
    l.all (fun tr => tr.profit.isSome) = true := by
  rw [List.all_eq_true] at h ⊢
  intro tr htr
  have h2 := h tr htr
  simp [checkClosed] at h2
  exact h2.2

/-- `metricsFold` succeeds on every ledger whose profits are all set. -/
theorem metricsFold_isSome (l : List Trade) (acc : MetricsAcc)
    (h : l.all (fun tr => tr.profit.isSome) = true) :
    (metricsFold acc l).isSome = true := by
  induction l generalizing acc with
  | nil => rfl
  | cons t ts ih =>
      simp only [List.all_cons, Bool.and_eq_true] at h
      obtain ⟨v, hv⟩ := Option.isSome_iff_exists.mp h.1
      simp only [metricsFold, metricsStep, hv]
      exact ih _ h.2

/-- `Metrics::compute` succeeds on every ledger whose profits are set. -/
theorem compute_isSome (l : List Trade)
    (h : l.all (fun tr => tr.profit.isSome) = true) :
    (Metrics.compute l).isSome = true := by
  have hf := metricsFold_isSome l MetricsAcc.init h
  unfold Metrics.compute
  rcases hm : metricsFold MetricsAcc.init l with _ | acc
  · rw [hm] at hf; simp at hf
  · simp

/-- C10: `run_simulation` never hits one of its panicking unwraps: the
force-exit reads the last bar only when a trade is open, which only
happens on a non-empty bar list, and every profit unwrapped by
`Metrics::compute` is set, so the simulation always returns a recap. -/
theorem C10_run_simulation_total (config : Config) (klines : List Kline) :
    (run_simulation config klines).isSome = true := by
  have hclosed := simFold_closed_all config klines
  rw [run_simulation]
  rcases hfe : forceExit klines (simFold config klines).1 with _ | pf2
  · exfalso
    unfold forceExit at hfe
    by_cases ho : (simFold config klines).1.open_trade.isSome
    · rw [if_pos ho] at hfe
      rcases hl : klines.getLast? with _ | l
      · have hnil : klines = [] := List.getLast?_eq_none_iff.mp hl
        subst hnil
        simp [simFold, Portfolio.new] at ho
      · rw [hl] at hfe
        simp at hfe
    · rw [if_neg ho] at hfe
      simp at hfe
  · have hp2 : pf2.closed_trades.all checkClosed = true := by
      unfold forceExit at hfe
      by_cases ho : (simFold config klines).1.open_trade.isSome
      · rw [if_pos ho] at hfe
        rcases hl : klines.getLast? with _ | l
        · rw [hl] at hfe
          simp at hfe
        · rw [hl] at hfe
          simp at hfe
          rw [← hfe]
          exact exit_trade_closed_all _ _ _ hclosed
      · rw [if_neg ho] at hfe
        simp at hfe
        rw [← hfe]
        exact hclosed
    have hc := compute_isSome pf2.closed_trades
      (all_checkClosed_profit _ hp2)
    rcases hm : Metrics.compute pf2.closed_trades with _ | m
    · rw [hm] at hc
      simp at hc
    · simp [hm]

end Retroval
